import Mathlib

/-!
Verification of the data-curation scripts in `scripts/` (add-licenses.py,
fix-github-links.py, extract-errors.py) against their natural-language
specification.

The scripts are shallowly embedded: Python strings become `String`, absent
JSON keys become `Option`, a JSON value that may be `null` becomes a nested
`Option` (so a field of type `Option (Option String)` is `none` when the key
is absent, `some none` when the key holds `null`, and `some (some s)` when it
holds the string `s`).  Network traffic is an oracle: a function from the
repository slug and the 0-based index of the request to the response.  Code
paths that raise a Python exception (the missing `time` import, `KeyError`,
failed `assert`) return `Except.error`.
-/

namespace Bump

/-! ## Python string primitives -/

/-- Python truthiness of a string-or-None value: `None` and `""` are falsy. -/
def truthy : Option String → Bool
  | none => false
  | some s => !(s == "")

/-- `d.get(k)`: an absent key and a key holding `null` both read as `None`. -/
def pyGet : Option (Option String) → Option String
  | none => none
  | some v => v

/-- Boolean list-prefix test (`needle` starts `hay`). -/
def isPrefixB : List Char → List Char → Bool
  | [], _ => true
  | _ :: _, [] => false
  | a :: as, b :: bs => a == b && isPrefixB as bs

/-- Boolean substring test on char lists, the semantics of Python's
`needle in hay`: the empty needle is contained in everything. -/
def isInfixB (needle : List Char) : List Char → Bool
  | [] => needle.isEmpty
  | c :: t => isPrefixB needle (c :: t) || isInfixB needle t

/-- Python's `needle in hay` on strings. -/
def pyContainsStr (hay needle : String) : Bool :=
  isInfixB needle.toList hay.toList

/-- Python's `str.split('/')` on char lists: splits at every `'/'`, keeping
empty segments; the split of the empty string is `[[]]`. -/
def pySplitSlash : List Char → List (List Char)
  | [] => [[]]
  | c :: rest =>
    match pySplitSlash rest with
    | [] => [[]]
    | seg :: segs => if c = '/' then [] :: seg :: segs else (c :: seg) :: segs

/-- Drop the longest suffix whose characters all satisfy `p`. -/
def dropLastWhile (p : Char → Bool) (l : List Char) : List Char :=
  ((l.reverse.dropWhile p).reverse)

/-- Python's `s.strip('/')`: remove leading and trailing `'/'` characters
(and nothing else — whitespace is kept). -/
def stripSlashes (l : List Char) : List Char :=
  (dropLastWhile (· == '/') l).dropWhile (· == '/')

/-- One fuel-indexed step list for Python's `str.replace(old, new)`;
replaces each non-overlapping occurrence of `needle`, left to right. -/
def replaceFuel (needle repl : List Char) : Nat → List Char → List Char
  | 0, hay => hay
  | _ + 1, [] => []
  | n + 1, c :: t =>
    if needle ≠ [] ∧ isPrefixB needle (c :: t) then
      repl ++ replaceFuel needle repl n ((c :: t).drop needle.length)
    else
      c :: replaceFuel needle repl n t

/-- Python's `hay.replace(old, new)` (all occurrences). -/
def pyReplace (hay old new : String) : String :=
  String.mk (replaceFuel old.toList new.toList (hay.toList.length + 1) hay.toList)

/-- The characters after the first occurrence of `"://"`, if any. -/
def afterSchemeSep : List Char → Option (List Char)
  | [] => none
  | c :: t =>
    if isPrefixB [':', '/', '/'] (c :: t) then some ((c :: t).drop 3)
    else afterSchemeSep t

/-- `urlparse(url).path`, modelled for the URL shapes these scripts see:
`scheme://host/path` (no query, params or fragment): everything from the
first `'/'` after the authority.  A URL with no `://` is all path, as in
`urlparse`. -/
def urlPathOf (url : String) : String :=
  match afterSchemeSep url.toList with
  | some hostAndPath => String.mk (hostAndPath.dropWhile (fun c => !(c == '/')))
  | none => url

/-! ## add-licenses.py: constants and license lookup (lines 11–37) -/

def LICENSE_NOT_FOUND : String := "No license found"
def REPO_NOT_FOUND : String := "Repository not found"
def MAX_RETRIES : Nat := 3
def RETRY_DELAY : Nat := 5

/-- The `spdx_id` entry of the `license` object in a metadata response:
absent, `null`, or a string. -/
inductive SpdxField where
  | absent
  | null
  | val (s : String)
deriving DecidableEq

/-- The `license` entry of a metadata response body: absent, `null`, or an
object carrying an `spdx_id` field. -/
inductive LicenseField where
  | absent
  | null
  | obj (spdx : SpdxField)
deriving DecidableEq

/-- One HTTP response of the repository-metadata endpoint: a status code and
(meaningful only for 200) the `license` part of the JSON body. -/
structure Resp where
  status : Nat
  license : LicenseField
deriving DecidableEq

/-- The Python exceptions the annotator can raise. -/
inductive Err where
  /-- `time.sleep(RETRY_DELAY)` on line 32 of add-licenses.py raises
  `NameError` because the `time` module is never imported. -/
  | nameErrorTime
  /-- `assert updatedDependency['licenseInfo']` (line 71) failed. -/
  | assertNestedLicense
  /-- `assert updatedDependency['githubRepoSlug']` (line 72) failed. -/
  | assertNestedSlug
  /-- `entry['licenseInfo']` (line 78) raised `KeyError`. -/
  | keyErrorLicenseInfo
  /-- `assert entry['licenseInfo']` (line 81) failed. -/
  | assertMainLicense
deriving DecidableEq

/-- The `for attempt in range(MAX_RETRIES)` loop of `get_license_info`
(lines 22–35).  `oracle i` is the response to the `i`-th request for this
slug; `remaining` counts loop iterations left and `attempt` requests already
issued.  Returns the Python return value (`none` models Python `None`, which
line 27 returns when `spdx_id` is `null`) together with the total number of
network requests issued; a 401 reaches the un-imported `time.sleep` and
raises. -/
def licenseAttempts (oracle : Nat → Resp) : Nat → Nat → Except Err (Option String × Nat)
  | 0, attempt => .ok (some LICENSE_NOT_FOUND, attempt)
  | remaining + 1, attempt =>
    let r := oracle attempt
    if r.status = 200 then
      match r.license with
      | .obj spdx =>
        .ok (match spdx with
             | .absent => some LICENSE_NOT_FOUND
             | .null => none
             | .val s => some s,
             attempt + 1)
      | .null => .ok (some LICENSE_NOT_FOUND, attempt + 1)
      | .absent => licenseAttempts oracle remaining (attempt + 1)
    else if r.status = 401 then
      .error .nameErrorTime
    else
      .ok (some LICENSE_NOT_FOUND, attempt + 1)

/-- `get_license_info(repo_name)` without the `lru_cache` layer: the body of
lines 19–37 run against the response oracle for that slug. -/
def get_license_info (oracle : Nat → Resp) : Except Err (Option String × Nat) :=
  licenseAttempts oracle MAX_RETRIES 0

/-- The `@lru_cache` state: slugs already resolved, with their results. -/
abbrev Cache := List (String × Option String)

/-- `get_license_info` as called, through `@lru_cache(maxsize=None)`
(line 17): a hit returns the stored value with no network request; a miss
runs the body and stores the result (exceptions are not cached, matching
`functools.lru_cache`).  Returns the value, the new cache, and the number of
network requests this call issued. -/
def get_license_info_cached (oracle : String → Nat → Resp) (cache : Cache)
    (slug : String) : Except Err (Option String × Cache × Nat) :=
  match cache.lookup slug with
  | some v => .ok (v, cache, 0)
  | none =>
    match get_license_info (oracle slug) with
    | .ok (v, n) => .ok (v, (slug, v) :: cache, n)
    | .error e => .error e

/-! ## add-licenses.py: slug resolution and mapping lookup (lines 39–61) -/

/-- `get_repo_name_from_url`, lines 39–44, applied to an already-parsed URL
path: strip `'/'` from both ends, split on `'/'`, and if at least two
segments result, join the first two with `'/'`; otherwise return `None`. -/
def get_repo_name_from_path (path : String) : Option String :=
  match pySplitSlash (stripSlashes path.toList) with
  | p₀ :: p₁ :: _ => some (String.mk (p₀ ++ '/' :: p₁))
  | _ => none

/-- `get_repo_name_from_url(url)`: `urlparse` extracts the path (`urlpath`
is the path-extraction function, `urlPathOf` in concrete instances), then
the path is reduced to an `owner/repo` slug. -/
def get_repo_name_from_url (urlpath : String → String) (url : String) : Option String :=
  get_repo_name_from_path (urlpath url)

/-- One entry of `manual_repo_mapping.json`: the keys
`updatedDependency.dependencyGroupID`, `updatedDependency.dependencyArtifactID`
(possibly the wildcard `"*"`) and `githubRepoLink`. -/
structure MappingEntry where
  groupID : String
  artifactID : String
  githubRepoLink : String
deriving DecidableEq

/-- Python `item[...] == value` where `value` came from `.get` and may be
`None`: `None` never equals a string. -/
def optEq (s : String) : Option String → Bool
  | some v => s == v
  | none => false

/-- The generator predicate of line 59: group id matches exactly, artifact id
matches exactly or is the wildcard `"*"`. -/
def matchesEntry (g a : Option String) (item : MappingEntry) : Bool :=
  optEq item.groupID g && (optEq item.artifactID a || item.artifactID == "*")

/-- `next((item for item in mapping if ...), None)` on line 59 of
add-licenses.py (line 116 of fix-github-links.py is identical): the first
entry, in table order, whose group id matches and whose artifact id matches
exactly or is `"*"`. -/
def find_repo_info (mapping : List MappingEntry) (g a : Option String) :
    Option MappingEntry :=
  mapping.find? (matchesEntry g a)

/-! ## add-licenses.py: the record annotator (lines 46–85) -/

/-- The `updatedDependency` object of a bump record.  Each field is `none`
when the key is absent, `some none` when it is `null`, `some (some s)` when
it holds string `s`. -/
structure UpdatedDep where
  dependencyGroupID : Option (Option String) := none
  dependencyArtifactID : Option (Option String) := none
  githubCompareLink : Option (Option String) := none
  licenseInfo : Option (Option String) := none
  githubRepoSlug : Option (Option String) := none
deriving DecidableEq

/-- A bump record (`entry`), restricted to the keys add-licenses.py reads or
writes.  `updatedDependency = none` models the key being absent, in which
case line 50 substitutes a fresh `{}` that is never linked back into the
entry. -/
structure Entry where
  url : Option (Option String) := none
  licenseInfo : Option (Option String) := none
  updatedDependency : Option UpdatedDep := none
deriving DecidableEq

/-- The fresh `{}` default of `entry.get('updatedDependency', {})`. -/
def emptyUD : UpdatedDep := {}

/-- Lines 67–69: both sentinel fields. -/
def setSentinels (ud : UpdatedDep) : UpdatedDep :=
  { ud with licenseInfo := some (some LICENSE_NOT_FOUND),
            githubRepoSlug := some (some REPO_NOT_FOUND) }

/-- Lines 51–61: derive `dependency_repo_name`.  `updatedDependency.get(k, d)`
returns the stored value (possibly `None`) when the key is present and the
default only when absent. -/
def dep_repo_name (urlpath : String → String) (mapping : List MappingEntry)
    (ud : UpdatedDep) : Option String :=
  let gcl : Option String :=
    match ud.githubCompareLink with
    | none => some ""
    | some v => v
  if truthy gcl && pyContainsStr (gcl.getD "") "https://github.com" then
    get_repo_name_from_url urlpath (gcl.getD "")
  else
    match find_repo_info mapping (pyGet ud.dependencyGroupID)
        (pyGet ud.dependencyArtifactID) with
    | some item => get_repo_name_from_url urlpath item.githubRepoLink
    | none => none

/-- Lines 63–69: set the nested fields from the resolved repo name (the
Python truthiness test `if dependency_repo_name:` treats both `None` and the
empty string as unresolved). -/
def nested_fields (oracle : String → Nat → Resp) (urlpath : String → String)
    (mapping : List MappingEntry) (ud : UpdatedDep) : Except Err UpdatedDep :=
  match dep_repo_name urlpath mapping ud with
  | some slug =>
    if slug == "" then .ok (setSentinels ud)
    else
      match get_license_info (oracle slug) with
      | .ok (li, _) =>
        .ok { ud with licenseInfo := some li, githubRepoSlug := some (some slug) }
      | .error e => .error e
  | none => .ok (setSentinels ud)

/-- Lines 50–72: annotate the `updatedDependency` object (possibly the
orphan `{}`) and run the two nested-field assertions of lines 71–72. -/
def annotate_nested (oracle : String → Nat → Resp) (urlpath : String → String)
    (mapping : List MappingEntry) (ud : UpdatedDep) : Except Err UpdatedDep :=
  match nested_fields oracle urlpath mapping ud with
  | .error e => .error e
  | .ok ud' =>
    if truthy (pyGet ud'.licenseInfo) then
      if truthy (pyGet ud'.githubRepoSlug) then .ok ud'
      else .error .assertNestedSlug
    else .error .assertNestedLicense

/-- The cache key of the top-level lookup on line 77:
`f"https://api.github.com/repos/{repo_name}"` interpolates Python `None`
as the text `"None"`. -/
def slugKey : Option String → String
  | some s => s
  | none => "None"

/-- Lines 78–79: `elif not entry['licenseInfo']: entry['licenseInfo'] = ...`.
Raises `KeyError` when the key is absent; replaces a falsy value with the
sentinel. -/
def top_license_fallback (origLicense : Option (Option String)) (entry1 : Entry) :
    Except Err Entry :=
  match origLicense with
  | none => .error .keyErrorLicenseInfo
  | some v =>
    .ok (if truthy v then entry1
         else { entry1 with licenseInfo := some (some LICENSE_NOT_FOUND) })

/-- Mutating the dict returned by `entry.get('updatedDependency', {})` only
affects the entry when the key existed (dict aliasing): the annotated object
replaces the nested one exactly when the key was present. -/
def relink (entry : Entry) (ud' : UpdatedDep) : Entry :=
  { entry with updatedDependency := entry.updatedDependency.map (fun _ => ud') }

/-- Lines 75–79: the top-level `licenseInfo` update.  `origUrl` and
`origLicense` are the entry's original `url` and `licenseInfo` values;
`entry1` is the in-memory entry after the nested phase. -/
def top_phase (oracle : String → Nat → Resp) (urlpath : String → String)
    (origUrl origLicense : Option (Option String)) (entry1 : Entry) :
    Except Err Entry :=
  if truthy (pyGet origUrl) then
    match get_license_info (oracle (slugKey
        (get_repo_name_from_url urlpath ((pyGet origUrl).getD "")))) with
    | .ok (li, _) => .ok { entry1 with licenseInfo := some li }
    | .error e => .error e
  else
    top_license_fallback origLicense entry1

/-- `update_json_file(file_path, mapping)`, lines 46–85, as a function from
the parsed record to the record written back (`Except.error` = a Python
exception escaped before the write on line 83, so the file is unchanged).
The final `assert` on line 81 guards the write. -/
def update_json_file (oracle : String → Nat → Resp) (urlpath : String → String)
    (mapping : List MappingEntry) (entry : Entry) : Except Err Entry :=
  match annotate_nested oracle urlpath mapping (entry.updatedDependency.getD emptyUD) with
  | .error e => .error e
  | .ok ud' =>
    match top_phase oracle urlpath entry.url entry.licenseInfo (relink entry ud') with
    | .error e => .error e
    | .ok e2 =>
      if truthy (pyGet e2.licenseInfo) then .ok e2 else .error .assertMainLicense

/-- The serialization of lines 83–85 (`json.dumps(entry, indent=2)` followed
by the `'": '` → `'" : '` substitution), over the fixed key order of the
`Entry` model: a deterministic function of the record. -/
def serializeField (name : String) (v : Option (Option String)) : List String :=
  match v with
  | none => []
  | some none => ["  \x22" ++ name ++ "\x22 : null"]
  | some (some s) => ["  \x22" ++ name ++ "\x22 : \x22" ++ s ++ "\x22"]

/-- Serialize the `updatedDependency` object. -/
def serializeUD (ud : UpdatedDep) : List String :=
  serializeField "dependencyGroupID" ud.dependencyGroupID ++
  serializeField "dependencyArtifactID" ud.dependencyArtifactID ++
  serializeField "githubCompareLink" ud.githubCompareLink ++
  serializeField "licenseInfo" ud.licenseInfo ++
  serializeField "githubRepoSlug" ud.githubRepoSlug

/-- Serialize a whole record with the `"key" : value` convention. -/
def serializeEntry (e : Entry) : String :=
  String.intercalate ",\n"
    (serializeField "url" e.url ++
     serializeField "licenseInfo" e.licenseInfo ++
     (match e.updatedDependency with
      | none => []
      | some ud =>
        ["  \x22updatedDependency\x22 : \x7b\n" ++
         String.intercalate ",\n" (serializeUD ud) ++ "\n  \x7d"]))

/-! ## fix-github-links.py: tag matching and the normalization pass -/

/-- `is_in_tags(tags, version)`, line 92–93: some tag name contains the
version string. -/
def is_in_tags (tags : List String) (version : String) : Bool :=
  tags.any (fun tag => pyContainsStr tag version)

/-- `find_version_in_tags(tags, version)`, lines 95–99: the first tag (in
resolver order) whose name contains `version` as a substring, else `None`. -/
def find_version_in_tags (tags : List String) (version : String) : Option String :=
  tags.find? (fun tag => pyContainsStr tag version)

/-- The per-file effect on `githubCompareLink` of the normalization pass
(fix-github-links.py lines 156–165): line 162 calls
`entry[...]['githubCompareLink'].replace('https://github.com/', '')` but
never assigns the result, so the value that is written back is the original
link in both branches. -/
def normalization_pass_link (link : String) : String :=
  if pyContainsStr link "Relevant tags were not found in the" then
    link
  else
    link

/-- Modelled from the spec: the normalization pass as the spec describes it
(§4.6: "strips a literal host prefix from any record whose link contains
that sentinel phrase, so the stored value is a bare slug"). -/
def normalization_pass_link_spec (link : String) : String :=
  if pyContainsStr link "Relevant tags were not found in the" then
    pyReplace link "https://github.com/" ""
  else
    link

/-! ## extract-errors.py: the log pre-labeling heuristic (lines 74–86) -/

/-- The four real pattern guards followed by `elif "requires Jenkins":` —
a constant non-empty string literal, which Python evaluates as truthy, so the
`continue` (modelled as `none` = record skipped) fires for every error text
that matched no earlier pattern, and the `else` branch never runs. -/
def pre_label (error_text : String) : Option String :=
  if pyContainsStr error_text
      "Failed to execute goal org.apache.maven.plugins:maven-compiler-plugin" then
    some "DEPENDENCY_BREAKING_API_CHANGE"
  else if pyContainsStr error_text
      "Failed to execute goal se.vandmo:dependency-lock-maven-plugin" then
    some "DEPENDENCY_VERSION_MISMATCH"
  else if pyContainsStr error_text "Some Enforcer rules have failed" then
    some "DEPENDENCY_VERSION_MISMATCH"
  else if pyContainsStr error_text "org.apache.maven.enforcer.rules" then
    some "DEPENDENCY_VERSION_MISMATCH"
  else if truthy (some "requires Jenkins") then
    none
  else
    some "OTHER"

/-- Whether any of the four real patterns matches (the hypothesis of the
unreachable-default claim). -/
def matchesAnyPattern (error_text : String) : Bool :=
  pyContainsStr error_text
      "Failed to execute goal org.apache.maven.plugins:maven-compiler-plugin" ||
  pyContainsStr error_text
      "Failed to execute goal se.vandmo:dependency-lock-maven-plugin" ||
  pyContainsStr error_text "Some Enforcer rules have failed" ||
  pyContainsStr error_text "org.apache.maven.enforcer.rules"

/-! ## Helper lemmas -/

/-- The retry loop issues at most `att + rem` requests in total when it
returns normally. -/
theorem licenseAttempts_calls_le (oracle : Nat → Resp) :
    ∀ (rem att : Nat) (v : Option String) (m : Nat),
      licenseAttempts oracle rem att = .ok (v, m) → m ≤ att + rem := by
  intro rem
  induction rem with
  | zero =>
    intro att v m h
    simp only [licenseAttempts] at h
    cases h
    omega
  | succ n ih =>
    intro att v m h
    simp only [licenseAttempts] at h
    split at h
    · split at h
      · cases h; omega
      · cases h; omega
      · have := ih (att + 1) v m h
        omega
    · split at h
      · cases h
      · cases h; omega

/-- Splitting never yields the empty list of segments. -/
theorem pySplitSlash_ne_nil (l : List Char) : pySplitSlash l ≠ [] := by
  cases l with
  | nil => simp [pySplitSlash]
  | cons c t =>
    simp only [pySplitSlash]
    split
    · simp
    · split <;> simp

/-- A trailing slash contributes exactly one trailing empty segment. -/
theorem pySplitSlash_append_slash (l : List Char) :
    pySplitSlash (l ++ ['/']) = pySplitSlash l ++ [[]] := by
  induction l with
  | nil => rfl
  | cons c t ih =>
    rw [List.cons_append]
    simp only [pySplitSlash, ih]
    cases h : pySplitSlash t with
    | nil => exact absurd h (pySplitSlash_ne_nil t)
    | cons seg segs =>
      by_cases hc : c = '/' <;> simp [hc]

/-- Splitting after a non-slash head char prepends that char to the first
segment of the tail's split. -/
theorem pySplitSlash_cons_ne_slash (c : Char) (t : List Char) (hc : ¬c = '/') :
    ∃ seg segs, pySplitSlash (c :: t) = (c :: seg) :: segs ∧
      pySplitSlash t = seg :: segs := by
  cases h : pySplitSlash t with
  | nil => exact absurd h (pySplitSlash_ne_nil t)
  | cons seg segs =>
    refine ⟨seg, segs, ?_, rfl⟩
    simp [pySplitSlash, h, hc]

/-- Dropping leading slashes only removes empty segments: the non-empty
segments of the split are unchanged. -/
theorem filter_pySplitSlash_dropWhile (l : List Char) :
    (pySplitSlash (l.dropWhile (· == '/'))).filter (· ≠ []) =
      (pySplitSlash l).filter (· ≠ []) := by
  induction l with
  | nil => rfl
  | cons c t ih =>
    by_cases hc : c = '/'
    · subst hc
      rw [List.dropWhile_cons_of_pos (by simp)]
      rw [ih]
      cases h : pySplitSlash t with
      | nil => exact absurd h (pySplitSlash_ne_nil t)
      | cons seg segs =>
        simp [pySplitSlash, h, List.filter_cons]
    · rw [List.dropWhile_cons_of_neg (by simp [hc])]

/-- A trailing run of slashes only removes empty segments of the split. -/
theorem filter_pySplitSlash_append_slashes (suffix : List Char) :
    (∀ c ∈ suffix, c = '/') → ∀ m : List Char,
      (pySplitSlash (m ++ suffix)).filter (· ≠ []) =
        (pySplitSlash m).filter (· ≠ []) := by
  induction suffix using List.reverseRecOn with
  | nil => simp
  | append_singleton s c ih =>
    intro h m
    have hc : c = '/' := h c (by simp)
    subst hc
    rw [← List.append_assoc, pySplitSlash_append_slash, List.filter_append]
    have h0 : ([[]] : List (List Char)).filter (· ≠ []) = [] := by simp
    rw [h0, List.append_nil]
    exact ih (fun x hx => h x (by simp [hx])) m

/-- `dropLastWhile` splits the list into the kept part and a dropped suffix
whose characters all satisfy `p`. -/
theorem dropLastWhile_decomp (p : Char → Bool) (l : List Char) :
    l = dropLastWhile p l ++ (l.reverse.takeWhile p).reverse ∧
      ∀ c ∈ (l.reverse.takeWhile p).reverse, p c = true := by
  constructor
  · unfold dropLastWhile
    conv_lhs => rw [← l.reverse_reverse]
    conv_lhs => rw [← List.takeWhile_append_dropWhile p l.reverse]
    rw [List.reverse_append]
  · intro c hc
    rw [List.mem_reverse] at hc
    exact List.mem_takeWhile_imp hc

/-- Stripping slashes from both ends leaves the non-empty segments of the
split unchanged. -/
theorem filter_pySplitSlash_strip (l : List Char) :
    (pySplitSlash (stripSlashes l)).filter (· ≠ []) =
      (pySplitSlash l).filter (· ≠ []) := by
  unfold stripSlashes
  rw [filter_pySplitSlash_dropWhile]
  obtain ⟨hdec, hall⟩ := dropLastWhile_decomp (· == '/') l
  conv_rhs => rw [hdec]
  rw [filter_pySplitSlash_append_slashes _
    (fun c hc => by simpa using hall c hc) _]

/-- The head of a `dropWhile` result fails the predicate. -/
theorem head_dropWhile_not (p : Char → Bool) :
    ∀ (l : List Char) (c : Char) (t : List Char),
      l.dropWhile p = c :: t → p c = false := by
  intro l
  induction l with
  | nil => intro c t h; cases h
  | cons a as ih =>
    intro c t h
    by_cases ha : p a
    · rw [List.dropWhile_cons_of_pos ha] at h
      exact ih c t h
    · rw [List.dropWhile_cons_of_neg ha] at h
      cases h
      exact Bool.eq_false_iff.mpr ha

/-- The last element of a `dropLastWhile` result fails the predicate. -/
theorem getLast_dropLastWhile_not (p : Char → Bool) (l : List Char) (c : Char)
    (h : (dropLastWhile p l).getLast? = some c) : p c = false := by
  unfold dropLastWhile at h
  rw [List.getLast?_reverse] at h
  cases hd : (l.reverse).dropWhile p with
  | nil => rw [hd] at h; cases h
  | cons b bs =>
    rw [hd] at h
    simp only [List.head?_cons, Option.some.injEq] at h
    subst h
    exact head_dropWhile_not p l.reverse b bs hd

/-- A front `dropWhile` either empties the list or keeps its last element. -/
theorem getLast_dropWhile (p : Char → Bool) :
    ∀ l : List Char, l.dropWhile p = [] ∨ (l.dropWhile p).getLast? = l.getLast? := by
  intro l
  induction l with
  | nil => exact Or.inl rfl
  | cons a as ih =>
    by_cases ha : p a
    · rw [List.dropWhile_cons_of_pos ha]
      cases as with
      | nil => exact Or.inl rfl
      | cons b bs => exact ih.imp id (fun h => h.trans (List.getLast?_cons_cons).symm)
    · rw [List.dropWhile_cons_of_neg ha]
      exact Or.inr rfl

/-- The head character of a stripped path is not a slash. -/
theorem stripSlashes_head_ne_slash (l : List Char) (c : Char) (t : List Char)
    (h : stripSlashes l = c :: t) : ¬c = '/' := by
  unfold stripSlashes at h
  have := head_dropWhile_not (· == '/') (dropLastWhile (· == '/') l) c t h
  simpa using this

/-- The last character of a stripped path is not a slash. -/
theorem stripSlashes_getLast_ne_slash (l : List Char) (s : Char)
    (h : (stripSlashes l).getLast? = some s) : ¬s = '/' := by
  unfold stripSlashes at h
  cases getLast_dropWhile (· == '/') (dropLastWhile (· == '/') l) with
  | inl he => rw [he] at h; cases h
  | inr heq =>
    rw [heq] at h
    have := getLast_dropLastWhile_not (· == '/') l s h
    simpa using this

/-- When the underlying list is non-empty and does not end in a slash, the
last segment of its split is non-empty. -/
theorem pySplitSlash_getLast_ne_nil :
    ∀ (l : List Char), l ≠ [] → l.getLast? ≠ some '/' →
      ∀ s, (pySplitSlash l).getLast? = some s → s ≠ [] := by
  intro l
  induction l with
  | nil => intro h; exact absurd rfl h
  | cons c t ih =>
    intro _ hlast s hs
    cases t with
    | nil =>
      have hc : ¬c = '/' := by
        intro he
        exact hlast (by simp [he])
      have hs' : s = [c] := by
        have hred : pySplitSlash [c] = [[c]] := by simp [pySplitSlash, hc]
        rw [hred] at hs
        simpa using hs.symm
      simp [hs']
    | cons b u =>
      have hlast' : (b :: u).getLast? ≠ some '/' := by
        rwa [List.getLast?_cons_cons] at hlast
      cases hsp : pySplitSlash (b :: u) with
      | nil => exact absurd hsp (pySplitSlash_ne_nil _)
      | cons seg segs =>
        have hred : pySplitSlash (c :: b :: u) =
            if c = '/' then [] :: seg :: segs else (c :: seg) :: segs := by
          rw [show pySplitSlash (c :: b :: u) =
              (match pySplitSlash (b :: u) with
               | [] => [[]]
               | sg :: sgs => if c = '/' then [] :: sg :: sgs else (c :: sg) :: sgs)
            from rfl, hsp]
        by_cases hc : c = '/'
        · rw [hred, if_pos hc, List.getLast?_cons_cons] at hs
          exact ih (by simp) hlast' s (by rw [hsp]; exact hs)
        · rw [hred, if_neg hc] at hs
          cases segs with
          | nil =>
            have hs' : s = c :: seg := by simpa using hs.symm
            simp [hs']
          | cons x xs =>
            rw [List.getLast?_cons_cons] at hs
            exact ih (by simp) hlast' s
              (by rw [hsp, List.getLast?_cons_cons]; exact hs)

/-- After stripping, a split of length ≥ 2 has ≥ 2 non-empty segments (its
first and last segments cannot be empty). -/
theorem two_nonempty_of_strip_len (l : List Char)
    (h : 2 ≤ (pySplitSlash (stripSlashes l)).length) :
    2 ≤ ((pySplitSlash (stripSlashes l)).filter (· ≠ [])).length := by
  cases hm : stripSlashes l with
  | nil => rw [hm] at h; simp [pySplitSlash] at h
  | cons c t =>
    have hc : ¬c = '/' := stripSlashes_head_ne_slash l c t hm
    obtain ⟨seg, segs, hsp, _⟩ := pySplitSlash_cons_ne_slash c t hc
    rw [hm] at h
    rw [hsp] at h ⊢
    have hsegs : segs ≠ [] := by
      intro he
      rw [he] at h
      simp at h
    obtain ⟨lastSeg, hlastSome⟩ : ∃ a, ((c :: seg) :: segs).getLast? = some a :=
      ⟨((c :: seg) :: segs).getLast (by simp), List.getLast?_eq_getLast _ _⟩
    have hlast_ne : lastSeg ≠ [] := by
      refine pySplitSlash_getLast_ne_nil (c :: t) (by simp) ?_ lastSeg
        (by rw [hsp]; exact hlastSome)
      intro hx
      exact stripSlashes_getLast_ne_slash l '/' (by rw [hm]; exact hx) rfl
    have hmem : lastSeg ∈ segs := by
      cases segs with
      | nil => exact absurd rfl hsegs
      | cons x xs =>
        rw [List.getLast?_cons_cons] at hlastSome
        exact List.mem_of_mem_getLast? (by simp [hlastSome])
    rw [List.filter_cons_of_pos (by simp)]
    have hmemf : lastSeg ∈ segs.filter (· ≠ []) :=
      List.mem_filter.mpr ⟨hmem, by simpa using hlast_ne⟩
    have hpos : 0 < (segs.filter (· ≠ [])).length :=
      List.length_pos.mpr (List.ne_nil_of_mem hmemf)
    simp only [List.length_cons]
    omega

/-- A trailing slash does not change the stripped path. -/
theorem stripSlashes_append_slash (l : List Char) :
    stripSlashes (l ++ ['/']) = stripSlashes l := by
  unfold stripSlashes dropLastWhile
  simp only [List.reverse_append, List.reverse_cons, List.reverse_nil,
    List.nil_append, List.singleton_append]
  rw [List.dropWhile_cons_of_pos (by simp)]

/-- The two possible successful outcomes of the nested-field phase: the
sentinel pair (when the repo name is falsy) or a license lookup result. -/
theorem nested_fields_cases (o : String → Nat → Resp) (u : String → String)
    (m : List MappingEntry) (ud x : UpdatedDep)
    (h : nested_fields o u m ud = .ok x) :
    (x = setSentinels ud ∧ truthy (dep_repo_name u m ud) = false) ∨
    (∃ slug li n, dep_repo_name u m ud = some slug ∧ (slug == "") = false ∧
      get_license_info (o slug) = .ok (li, n) ∧
      x = { ud with licenseInfo := some li, githubRepoSlug := some (some slug) }) := by
  unfold nested_fields at h
  cases hdr : dep_repo_name u m ud with
  | none =>
    rw [hdr] at h
    injection h with h'
    exact Or.inl ⟨h'.symm, rfl⟩
  | some slug =>
    rw [hdr] at h
    dsimp only at h
    by_cases hs : (slug == "") = true
    · rw [if_pos hs] at h
      injection h with h'
      refine Or.inl ⟨h'.symm, ?_⟩
      simp [truthy, hs]
    · rw [if_neg hs] at h
      cases hg : get_license_info (o slug) with
      | error er => rw [hg] at h; cases h
      | ok p =>
        obtain ⟨li, n⟩ := p
        rw [hg] at h
        injection h with h'
        exact Or.inr ⟨slug, li, n, rfl, by simpa using hs, hg, h'.symm⟩

/-- A successful annotation of the nested object means the field phase
succeeded and both assertions held. -/
theorem annotate_nested_ok (o : String → Nat → Resp) (u : String → String)
    (m : List MappingEntry) (ud ud' : UpdatedDep)
    (h : annotate_nested o u m ud = .ok ud') :
    nested_fields o u m ud = .ok ud' ∧
    truthy (pyGet ud'.licenseInfo) = true ∧
    truthy (pyGet ud'.githubRepoSlug) = true := by
  unfold annotate_nested at h
  cases hnf : nested_fields o u m ud with
  | error er => rw [hnf] at h; cases h
  | ok x =>
    rw [hnf] at h
    dsimp only at h
    by_cases h1 : truthy (pyGet x.licenseInfo) = true
    · rw [if_pos h1] at h
      by_cases h2 : truthy (pyGet x.githubRepoSlug) = true
      · rw [if_pos h2] at h
        injection h with h'
        subst h'
        exact ⟨rfl, h1, h2⟩
      · rw [if_neg h2] at h; cases h
    · rw [if_neg h1] at h; cases h

/-- Conversely, a successful field phase with truthy fields makes the
annotation succeed. -/
theorem annotate_nested_of (o : String → Nat → Resp) (u : String → String)
    (m : List MappingEntry) (ud x : UpdatedDep)
    (hnf : nested_fields o u m ud = .ok x)
    (h1 : truthy (pyGet x.licenseInfo) = true)
    (h2 : truthy (pyGet x.githubRepoSlug) = true) :
    annotate_nested o u m ud = .ok x := by
  unfold annotate_nested
  rw [hnf]
  dsimp only
  rw [if_pos h1, if_pos h2]

/-- Annotating an already-annotated nested object reproduces it: the
annotation only writes `licenseInfo`/`githubRepoSlug`, which
`dep_repo_name` never reads. -/
theorem annotate_nested_idem (o : String → Nat → Resp) (u : String → String)
    (m : List MappingEntry) (ud ud' : UpdatedDep)
    (h : annotate_nested o u m ud = .ok ud') :
    annotate_nested o u m ud' = .ok ud' := by
  obtain ⟨hnf, h1, h2⟩ := annotate_nested_ok o u m ud ud' h
  refine annotate_nested_of o u m ud' ud' ?_ h1 h2
  rcases nested_fields_cases o u m ud ud' hnf with ⟨hx, hdr⟩ | ⟨slug, li, n, hdr, hs, hg, hx⟩
  · subst hx
    unfold nested_fields
    have hdr' : dep_repo_name u m (setSentinels ud) = dep_repo_name u m ud := rfl
    rw [hdr']
    cases hdr0 : dep_repo_name u m ud with
    | none => rfl
    | some slug =>
      have hs : (slug == "") = true := by
        rw [hdr0] at hdr
        simpa [truthy] using hdr
      dsimp only
      rw [if_pos hs]
      rfl
  · subst hx
    unfold nested_fields
    have hdr' :
        dep_repo_name u m
          { ud with licenseInfo := some li, githubRepoSlug := some (some slug) } =
        dep_repo_name u m ud := rfl
    rw [hdr', hdr]
    dsimp only
    rw [if_neg (by simp [hs]), hg]

/-- The top-level phase never touches `updatedDependency` or `url`. -/
theorem top_phase_ud (o : String → Nat → Resp) (u : String → String)
    (url lic : Option (Option String)) (e1 e2 : Entry)
    (h : top_phase o u url lic e1 = .ok e2) :
    e2.updatedDependency = e1.updatedDependency ∧ e2.url = e1.url := by
  unfold top_phase at h
  by_cases ht : truthy (pyGet url) = true
  · rw [if_pos ht] at h
    cases hg : get_license_info (o (slugKey
        (get_repo_name_from_url u ((pyGet url).getD "")))) with
    | error er => rw [hg] at h; cases h
    | ok p =>
      obtain ⟨li, n⟩ := p
      rw [hg] at h
      injection h with h'
      subst h'
      exact ⟨rfl, rfl⟩
  · rw [if_neg ht] at h
    unfold top_license_fallback at h
    cases lic with
    | none => cases h
    | some v =>
      injection h with h'
      subst h'
      by_cases hv : truthy v = true <;> simp [hv]

/-- Rerunning the top-level phase on its own truthy output is a no-op. -/
theorem top_phase_idem (o : String → Nat → Resp) (u : String → String)
    (url : Option (Option String)) (e1 e2 : Entry)
    (h : top_phase o u url e1.licenseInfo e1 = .ok e2)
    (ht2 : truthy (pyGet e2.licenseInfo) = true) :
    top_phase o u url e2.licenseInfo e2 = .ok e2 := by
  unfold top_phase at h ⊢
  by_cases ht : truthy (pyGet url) = true
  · rw [if_pos ht] at h ⊢
    cases hg : get_license_info (o (slugKey
        (get_repo_name_from_url u ((pyGet url).getD "")))) with
    | error er => rw [hg] at h; cases h
    | ok p =>
      obtain ⟨li, n⟩ := p
      rw [hg] at h
      dsimp only at h ⊢
      injection h with h'
      subst h'
      rfl
  · rw [if_neg ht] at h ⊢
    unfold top_license_fallback at h ⊢
    cases hl : e1.licenseInfo with
    | none => rw [hl] at h; cases h
    | some v =>
      rw [hl] at h
      injection h with h'
      by_cases hv : truthy v = true
      · rw [if_pos hv] at h'
        subst h'
        rw [hl]
        dsimp only
        rw [if_pos hv]
      · rw [if_neg hv] at h'
        subst h'
        rfl

end Bump

namespace Bump

/-! ## Claim theorems -/

/-- C2: the claim says a license lookup retries on HTTP 401 up to 3 attempts
with a 5-second delay and then degrades to the not-found sentinel, and stops
immediately with the sentinel on any other non-2xx status.  The code's
intent matches (it prints "Retrying in 5 seconds..."), but `time` is never
imported, so the first 401 reaches `time.sleep(RETRY_DELAY)` and raises
`NameError`, aborting the run instead of retrying: evaluated here on an
oracle that always answers 401 (first conjunct).  The immediate-stop/sentinel
behaviour on another non-2xx status (404) is as claimed (second conjunct). -/
theorem c2_401_raises_name_error :
    get_license_info (fun _ => ⟨401, .absent⟩) = .error .nameErrorTime ∧
    get_license_info (fun _ => ⟨404, .absent⟩) = .ok (some LICENSE_NOT_FOUND, 1) :=
  ⟨rfl, rfl⟩

/-- C3 counterexample: the claim says two lookups of the same slug issue at
most one network call in total.  With an oracle whose first response is a 200
whose body has no `license` key, the loop re-issues the request: the first
lookup alone issues 2 network calls (and the second, served from the cache,
issues 0), so the two calls issue 2 > 1 network calls. -/
theorem c3_counterexample :
    get_license_info_cached
        (fun _ i => if i = 0 then ⟨200, .absent⟩ else ⟨200, .obj (.val "MIT")⟩)
        [] "a/b" =
      .ok (some "MIT", [("a/b", some "MIT")], 2) ∧
    get_license_info_cached
        (fun _ i => if i = 0 then ⟨200, .absent⟩ else ⟨200, .obj (.val "MIT")⟩)
        [("a/b", some "MIT")] "a/b" =
      .ok (some "MIT", [("a/b", some "MIT")], 0) ∧
    ¬(2 + 0 ≤ 1) :=
  ⟨rfl, rfl, by omega⟩

/-- C3 as amended: for every slug, when the first lookup returns, the second
lookup of the same slug is served from the cache — it issues no network call
and returns the same result — and the first lookup issued at most
`MAX_RETRIES` (3) network calls. -/
theorem c3_memoized (oracle : String → Nat → Resp) (cache : Cache) (slug : String)
    (v : Option String) (c1 : Cache) (n1 : Nat)
    (h : get_license_info_cached oracle cache slug = .ok (v, c1, n1)) :
    get_license_info_cached oracle c1 slug = .ok (v, c1, 0) ∧ n1 ≤ MAX_RETRIES := by
  unfold get_license_info_cached at h ⊢
  cases h0 : cache.lookup slug with
  | some w =>
    rw [h0] at h
    cases h
    rw [h0]
    exact ⟨rfl, by simp [MAX_RETRIES]⟩
  | none =>
    rw [h0] at h
    cases hg : get_license_info (oracle slug) with
    | error e => rw [hg] at h; cases h
    | ok p =>
      obtain ⟨w, n⟩ := p
      rw [hg] at h
      simp only [Except.ok.injEq, Prod.mk.injEq] at h
      obtain ⟨hv, hc, hn⟩ := h
      subst hv; subst hc; subst hn
      have hle := licenseAttempts_calls_le (oracle slug) MAX_RETRIES 0 w n hg
      simp only [List.lookup, beq_self_eq_true, if_true]
      exact ⟨trivial, by simpa using hle⟩

/-- C3 witness: a lookup answered by a single 200 carrying `spdx_id "MIT"`,
followed by a cache hit. -/
theorem c3_memoized_witness :
    get_license_info_cached (fun _ _ => ⟨200, .obj (.val "MIT")⟩)
        [("a/b", some "MIT")] "a/b" =
      .ok (some "MIT", [("a/b", some "MIT")], 0) ∧ 1 ≤ MAX_RETRIES :=
  c3_memoized (fun _ _ => ⟨200, .obj (.val "MIT")⟩) [] "a/b"
    (some "MIT") [("a/b", some "MIT")] 1 rfl

/-- C5 counterexample: the claim says an exact `(groupID, artifactID)` match
takes precedence over a wildcard entry regardless of table order.  With a
wildcard entry before the exact entry, the lookup returns the wildcard
entry, not the exact one. -/
theorem c5_counterexample :
    find_repo_info [⟨"g", "*", "L1"⟩, ⟨"g", "a", "L2"⟩] (some "g") (some "a") =
      some ⟨"g", "*", "L1"⟩ ∧
    find_repo_info [⟨"g", "*", "L1"⟩, ⟨"g", "a", "L2"⟩] (some "g") (some "a") ≠
      some ⟨"g", "a", "L2"⟩ := by
  exact ⟨rfl, by decide⟩

/-- C5 as amended: the mapping lookup returns the first entry in table order
whose group id matches and whose artifact id matches exactly or is the
wildcard `"*"` — an earlier wildcard entry therefore wins over a later exact
match.  It returns none exactly when no entry matches, and any returned
entry matches. -/
theorem c5_first_match :
    (∀ (mapping : List MappingEntry) (g a : Option String),
        (∀ x ∈ mapping, matchesEntry g a x = false) →
        find_repo_info mapping g a = none) ∧
    (∀ (pre post : List MappingEntry) (e : MappingEntry) (g a : Option String),
        (∀ x ∈ pre, matchesEntry g a x = false) → matchesEntry g a e = true →
        find_repo_info (pre ++ e :: post) g a = some e) ∧
    (∀ (mapping : List MappingEntry) (g a : Option String) (e : MappingEntry),
        find_repo_info mapping g a = some e → matchesEntry g a e = true) := by
  refine ⟨?_, ?_, ?_⟩
  · intro mapping g a h
    unfold find_repo_info
    rw [List.find?_eq_none]
    intro x hx
    simp [h x hx]
  · intro pre post e g a hpre he
    induction pre with
    | nil =>
      unfold find_repo_info
      rw [List.nil_append]
      exact List.find?_cons_of_pos _ he
    | cons u us ih =>
      have hu : matchesEntry g a u = false := hpre u (by simp)
      have hus : ∀ x ∈ us, matchesEntry g a x = false := fun x hx => hpre x (by simp [hx])
      unfold find_repo_info at ih ⊢
      rw [List.cons_append, List.find?_cons_of_neg _ (by simp [hu])]
      exact ih hus
  · intro mapping g a e h
    exact List.find?_some h

/-- C5 witness: an exact match preceded by a non-matching entry is found. -/
theorem c5_first_match_witness :
    find_repo_info [⟨"h", "x", "L0"⟩, ⟨"g", "a", "L2"⟩] (some "g") (some "a") =
      some ⟨"g", "a", "L2"⟩ :=
  c5_first_match.2.1 [⟨"h", "x", "L0"⟩] [] ⟨"g", "a", "L2"⟩ (some "g") (some "a")
    (by decide) (by decide)

/-- C6: `find_version_in_tags` returns the first tag in resolver order whose
name contains the version string as a substring, returns none when no tag
name contains it, and on the spec's examples returns `"v1.0.1"` for
`"1.0.1"` and none for `"9.9.9"`. -/
theorem c6_find_version_tag :
    (∀ (pre post : List String) (t version : String),
        pyContainsStr t version = true →
        (∀ u ∈ pre, pyContainsStr u version = false) →
        find_version_in_tags (pre ++ t :: post) version = some t) ∧
    (∀ (tags : List String) (version : String),
        (∀ u ∈ tags, pyContainsStr u version = false) →
        find_version_in_tags tags version = none) ∧
    find_version_in_tags ["v1.0.0", "v1.0.1", "v2.0.0"] "1.0.1" = some "v1.0.1" ∧
    find_version_in_tags ["v1.0.0", "v1.0.1", "v2.0.0"] "9.9.9" = none := by
  refine ⟨?_, ?_, rfl, rfl⟩
  · intro pre post t version ht hpre
    induction pre with
    | nil =>
      unfold find_version_in_tags
      rw [List.nil_append]
      exact List.find?_cons_of_pos _ ht
    | cons u us ih =>
      have hu : pyContainsStr u version = false := hpre u (by simp)
      have hus : ∀ x ∈ us, pyContainsStr x version = false :=
        fun x hx => hpre x (by simp [hx])
      unfold find_version_in_tags at ih ⊢
      rw [List.cons_append, List.find?_cons_of_neg _ (by simp [hu])]
      exact ih hus
  · intro tags version h
    unfold find_version_in_tags
    rw [List.find?_eq_none]
    intro x hx
    simp [h x hx]

/-- C6 witness: the spec's first example, obtained through the first-match
characterization at `pre = ["v1.0.0"]`. -/
theorem c6_find_version_tag_witness :
    find_version_in_tags (["v1.0.0"] ++ "v1.0.1" :: ["v2.0.0"]) "1.0.1" =
      some "v1.0.1" :=
  c6_find_version_tag.1 ["v1.0.0"] ["v2.0.0"] "v1.0.1" "1.0.1" (by decide) (by decide)

/-- C7: the claim (and spec §4.6) says the later normalization pass strips
the `https://github.com/` prefix from any record whose compare link contains
the "Relevant tags were not found" sentinel.  In the code, line 162 of
fix-github-links.py calls `.replace(...)` but discards the result, so the
stored value is unchanged and still contains the full host prefix; the
spec-modelled pass (`normalization_pass_link_spec`) would have removed it. -/
theorem c7_normalization_pass_is_noop :
    normalization_pass_link
        "Relevant tags were not found in the GitHub repository https://github.com/foo/bar for the updated dependency." =
      "Relevant tags were not found in the GitHub repository https://github.com/foo/bar for the updated dependency." ∧
    pyContainsStr
        "Relevant tags were not found in the GitHub repository https://github.com/foo/bar for the updated dependency."
        "https://github.com/" = true ∧
    normalization_pass_link_spec
        "Relevant tags were not found in the GitHub repository https://github.com/foo/bar for the updated dependency." =
      "Relevant tags were not found in the GitHub repository foo/bar for the updated dependency." :=
  ⟨rfl, by decide, by decide⟩

/-- C10: in the pre-labeling heuristic of extract-errors.py, the guard
`elif "requires Jenkins":` before the default branch is a constant non-empty
string literal, hence always truthy, so every error text matching none of
the four patterns is skipped (`continue`) and no record is ever pre-labeled
`"OTHER"`. -/
theorem c10_other_label_unreachable :
    (∀ t : String, pre_label t ≠ some "OTHER") ∧
    (∀ t : String, matchesAnyPattern t = false → pre_label t = none) := by
  constructor
  · intro t
    unfold pre_label
    split_ifs with h1 h2 h3 h4 h5
    · decide
    · decide
    · decide
    · decide
    · decide
    · exact absurd (by decide) h5
  · intro t h
    simp only [matchesAnyPattern, Bool.or_eq_false_iff] at h
    obtain ⟨⟨⟨h1, h2⟩, h3⟩, h4⟩ := h
    simp [pre_label, h1, h2, h3, h4]
    decide

/-- C10 witness: a text matching none of the four patterns is skipped. -/
theorem c10_other_label_unreachable_witness :
    pre_label "[INFO] BUILD FAILURE" = none :=
  c10_other_label_unreachable.2 "[INFO] BUILD FAILURE" (by decide)

/-- C4 counterexample: the claim says the result is unaffected by
leading/trailing whitespace in the path, and that with at least two
non-empty segments the resolver returns the first two segments joined.
Both fail: `strip` only removes slashes, so a trailing space in a
two-segment path survives into the slug and changes the result; and for the
path `"/a//b"` (two non-empty segments `a`, `b`) the resolver returns
`"a/"` — the literal first two segments of the stripped split, one of them
empty — not `"a/b"`. -/
theorem c4_counterexample :
    get_repo_name_from_path "/versly/wsdoc " ≠ get_repo_name_from_path "/versly/wsdoc" ∧
    get_repo_name_from_path "/versly/wsdoc " = some "versly/wsdoc " ∧
    2 ≤ ((pySplitSlash ("/a//b".toList)).filter (· ≠ [])).length ∧
    get_repo_name_from_path "/a//b" = some "a/" ∧
    (some "a/" : Option String) ≠ some "a/b" :=
  ⟨by decide, rfl, by decide, rfl, by decide⟩

/-- C4 as amended: the resolver strips slashes (only) from both ends of the
parsed path and splits on `'/'`.  It returns a slug exactly when the path
has at least two non-empty segments (first conjunct); the slug is the
literal first two segments of the stripped split joined by `'/'` (so an
interior empty segment is kept, and whitespace is preserved inside
segments), and its first segment is never empty (second conjunct); the
result is unaffected by trailing slashes (third conjunct); and the spec's
example URL resolves to `versly/wsdoc` (fourth conjunct). -/
theorem c4_slug_resolution :
    (∀ path : String,
        2 ≤ ((pySplitSlash path.toList).filter (· ≠ [])).length ↔
          (get_repo_name_from_path path).isSome = true) ∧
    (∀ path s : String, get_repo_name_from_path path = some s →
        ∃ p₀ p₁ rest, pySplitSlash (stripSlashes path.toList) = p₀ :: p₁ :: rest ∧
          s = String.mk (p₀ ++ '/' :: p₁) ∧ p₀ ≠ []) ∧
    (∀ path : String,
        get_repo_name_from_path (path ++ "/") = get_repo_name_from_path path) ∧
    get_repo_name_from_url urlPathOf "https://github.com/versly/wsdoc/pull/80" =
      some "versly/wsdoc" := by
  refine ⟨?_, ?_, ?_, by decide⟩
  · intro path
    rw [← filter_pySplitSlash_strip path.toList]
    constructor
    · intro h
      have hlen : 2 ≤ (pySplitSlash (stripSlashes path.toList)).length :=
        le_trans h (List.length_filter_le _ _)
      unfold get_repo_name_from_path
      cases hsp : pySplitSlash (stripSlashes path.toList) with
      | nil => rw [hsp] at hlen; simp at hlen
      | cons p₀ rest =>
        cases rest with
        | nil => rw [hsp] at hlen; simp at hlen
        | cons p₁ rest' => simp
    · intro h
      apply two_nonempty_of_strip_len
      unfold get_repo_name_from_path at h
      cases hsp : pySplitSlash (stripSlashes path.toList) with
      | nil => rw [hsp] at h; simp at h
      | cons p₀ rest =>
        cases rest with
        | nil => rw [hsp] at h; simp at h
        | cons p₁ rest' => simp
  · intro path s h
    unfold get_repo_name_from_path at h
    cases hsp : pySplitSlash (stripSlashes path.toList) with
    | nil => rw [hsp] at h; cases h
    | cons p₀ rest =>
      cases rest with
      | nil => rw [hsp] at h; cases h
      | cons p₁ rest' =>
        rw [hsp] at h
        refine ⟨p₀, p₁, rest', rfl, (Option.some.inj h).symm, ?_⟩
        cases hm : stripSlashes path.toList with
        | nil => rw [hm] at hsp; simp [pySplitSlash] at hsp
        | cons c t =>
          have hc : ¬c = '/' := stripSlashes_head_ne_slash path.toList c t hm
          obtain ⟨seg, segs, hsp', _⟩ := pySplitSlash_cons_ne_slash c t hc
          rw [hm, hsp'] at hsp
          rw [← (List.cons.inj hsp).1]
          simp
  · intro path
    unfold get_repo_name_from_path
    rw [show (path ++ "/").toList = path.toList ++ ['/'] from String.data_append path "/",
      stripSlashes_append_slash]

/-- C4 witness: the spec's example path, pushed through the value
characterization. -/
theorem c4_slug_resolution_witness :
    ∃ p₀ p₁ rest,
      pySplitSlash (stripSlashes "/versly/wsdoc/pull/80".toList) = p₀ :: p₁ :: rest ∧
        "versly/wsdoc" = String.mk (p₀ ++ '/' :: p₁) ∧ p₀ ≠ [] :=
  c4_slug_resolution.2.1 "/versly/wsdoc/pull/80" "versly/wsdoc" rfl

/-- C1 counterexample: the claim says the nested
`updatedDependency.licenseInfo`/`githubRepoSlug` fields are present after
every non-aborting annotation.  For a record with no `updatedDependency`
key, line 50's `entry.get('updatedDependency', {})` builds a fresh dict that
is never linked back into the entry: the run completes (the assertions pass
on the orphan dict), but the written record still has no `updatedDependency`
object at all, hence no nested fields. -/
theorem c1_counterexample :
    update_json_file (fun _ _ => ⟨404, .absent⟩) urlPathOf []
        { url := none, licenseInfo := some (some "MIT"), updatedDependency := none } =
      .ok { url := none, licenseInfo := some (some "MIT"), updatedDependency := none } ∧
    (Entry.updatedDependency
      { url := none, licenseInfo := some (some "MIT"), updatedDependency := none }) =
      none :=
  ⟨rfl, rfl⟩

/-- C1 as amended: whenever the annotator completes without aborting, the
top-level `licenseInfo` is present and truthy (non-empty string), and the
nested `licenseInfo`/`githubRepoSlug` are present and truthy in the output
*provided the record has an `updatedDependency` object* (which the output
has exactly when the input did); when the dependency repository is
unresolvable, the nested fields fall back to the sentinels
`"No license found"` / `"Repository not found"`.  This is enforced by the
assertion checks: every `ok` path passes through them. -/
theorem c1_required_fields (o : String → Nat → Resp) (u : String → String)
    (m : List MappingEntry) (e e' : Entry)
    (h : update_json_file o u m e = .ok e') :
    truthy (pyGet e'.licenseInfo) = true ∧
    (∀ x, e'.updatedDependency = some x →
        truthy (pyGet x.licenseInfo) = true ∧ truthy (pyGet x.githubRepoSlug) = true) ∧
    e'.updatedDependency.isSome = e.updatedDependency.isSome ∧
    (∀ ud₀, e.updatedDependency = some ud₀ →
        truthy (dep_repo_name u m ud₀) = false →
        e'.updatedDependency = some (setSentinels ud₀)) := by
  unfold update_json_file at h
  cases han : annotate_nested o u m (e.updatedDependency.getD emptyUD) with
  | error er => rw [han] at h; cases h
  | ok ud' =>
    rw [han] at h
    dsimp only at h
    cases htp : top_phase o u e.url e.licenseInfo (relink e ud') with
    | error er => rw [htp] at h; cases h
    | ok e2 =>
      rw [htp] at h
      dsimp only at h
      by_cases hif : truthy (pyGet e2.licenseInfo) = true
      · rw [if_pos hif] at h
        injection h with h'
        subst h'
        obtain ⟨hud, _⟩ := top_phase_ud o u e.url e.licenseInfo (relink e ud') e2 htp
        rw [show (relink e ud').updatedDependency =
            e.updatedDependency.map (fun _ => ud') from rfl] at hud
        refine ⟨hif, ?_, ?_, ?_⟩
        · intro x hx
          rw [hud] at hx
          cases heud : e.updatedDependency with
          | none => rw [heud] at hx; simp at hx
          | some w =>
            rw [heud] at hx
            injection hx with hx'
            have han' : annotate_nested o u m w = .ok ud' := by
              rw [heud] at han
              exact han
            have hok := annotate_nested_ok o u m w ud' han'
            rw [← hx']
            exact ⟨hok.2.1, hok.2.2⟩
        · rw [hud]; cases e.updatedDependency <;> rfl
        · intro ud₀ h₀ hfalse
          rw [hud, h₀]
          have hnf0 : nested_fields o u m ud₀ = .ok (setSentinels ud₀) := by
            unfold nested_fields
            cases hdr : dep_repo_name u m ud₀ with
            | none => rfl
            | some slug =>
              have hs : (slug == "") = true := by
                rw [hdr] at hfalse
                simpa [truthy] using hfalse
              dsimp only
              rw [if_pos hs]
          have hann : annotate_nested o u m ud₀ = .ok (setSentinels ud₀) :=
            annotate_nested_of o u m ud₀ (setSentinels ud₀) hnf0 rfl rfl
          rw [h₀] at han
          have han' : annotate_nested o u m ud₀ = .ok ud' := han
          rw [han'] at hann
          injection hann with h''
          rw [h'']
          rfl
      · rw [if_neg hif] at h; cases h

/-- C1 witness: a record whose dependency is unresolvable (no compare link,
empty mapping) gets the sentinel fields, and the top-level `licenseInfo`
stays truthy. -/
theorem c1_required_fields_witness :
    truthy (pyGet (Entry.licenseInfo
      { url := none, licenseInfo := some (some "MIT"),
        updatedDependency :=
          some { dependencyGroupID := some (some "g"),
                 licenseInfo := some (some "No license found"),
                 githubRepoSlug := some (some "Repository not found") } })) = true :=
  (c1_required_fields (fun _ _ => ⟨404, .absent⟩) urlPathOf []
    { url := none, licenseInfo := some (some "MIT"),
      updatedDependency := some { dependencyGroupID := some (some "g") } }
    { url := none, licenseInfo := some (some "MIT"),
      updatedDependency :=
        some { dependencyGroupID := some (some "g"),
               licenseInfo := some (some "No license found"),
               githubRepoSlug := some (some "Repository not found") } }
    rfl).1

/-- C9 counterexample: the claim says a record with no top-level `url` key
and no `licenseInfo` key always aborts with a *key-lookup* error.  The abort
is guaranteed, but the error need not be the `KeyError`: when the nested
phase itself raises first (here the un-imported `time` module on an HTTP 401
during the dependency license lookup), that earlier error aborts the run
instead. -/
theorem c9_counterexample :
    update_json_file (fun _ _ => ⟨401, .absent⟩) urlPathOf []
        { url := none, licenseInfo := none,
          updatedDependency :=
            some { githubCompareLink := some (some "https://github.com/a/b") } } =
      .error .nameErrorTime ∧
    Err.nameErrorTime ≠ Err.keyErrorLicenseInfo :=
  ⟨rfl, by decide⟩

/-- C9 as amended: a record with no top-level `url` key and no pre-existing
top-level `licenseInfo` key always makes the annotator raise before the
output write — so the file is left unchanged and the not-found sentinel is
never written for it — and the error is precisely the `KeyError` from
`entry['licenseInfo']` whenever the nested-dependency phase itself completes
without raising. -/
theorem c9_missing_keys_raise (o : String → Nat → Resp) (u : String → String)
    (m : List MappingEntry) (e : Entry)
    (hurl : e.url = none) (hlic : e.licenseInfo = none) :
    update_json_file o u m e =
      .error (match annotate_nested o u m (e.updatedDependency.getD emptyUD) with
              | .ok _ => Err.keyErrorLicenseInfo
              | .error err => err) := by
  unfold update_json_file
  cases han : annotate_nested o u m (e.updatedDependency.getD emptyUD) with
  | error er => rfl
  | ok ud' =>
    dsimp only
    unfold top_phase
    rw [hurl, hlic]
    rfl

/-- C9 witness: a concrete record with both keys missing raises the
`KeyError` (its nested phase succeeds with the sentinels). -/
theorem c9_missing_keys_raise_witness :
    update_json_file (fun _ _ => ⟨404, .absent⟩) urlPathOf []
        { url := none, licenseInfo := none, updatedDependency := none } =
      .error (match annotate_nested (fun _ _ => ⟨404, .absent⟩) urlPathOf []
                (Option.getD (Entry.updatedDependency
                  { url := none, licenseInfo := none, updatedDependency := none })
                  emptyUD) with
              | .ok _ => Err.keyErrorLicenseInfo
              | .error err => err) :=
  c9_missing_keys_raise (fun _ _ => ⟨404, .absent⟩) urlPathOf []
    { url := none, licenseInfo := none, updatedDependency := none } rfl rfl

/-- C8: annotation is idempotent.  With the same oracle (no upstream change)
and the same mapping, re-running the annotator on the record produced by a
successful first run returns that record unchanged, so the file write — a
deterministic serialization of the record — is byte-identical. -/
theorem c8_annotation_idempotent (o : String → Nat → Resp) (u : String → String)
    (m : List MappingEntry) (e e1 : Entry)
    (h : update_json_file o u m e = .ok e1) :
    update_json_file o u m e1 = .ok e1 ∧
    ∀ e2, update_json_file o u m e1 = .ok e2 →
      serializeEntry e2 = serializeEntry e1 := by
  have main : update_json_file o u m e1 = .ok e1 := by
    unfold update_json_file at h
    cases han : annotate_nested o u m (e.updatedDependency.getD emptyUD) with
    | error er => rw [han] at h; cases h
    | ok ud' =>
      rw [han] at h
      dsimp only at h
      cases htp : top_phase o u e.url e.licenseInfo (relink e ud') with
      | error er => rw [htp] at h; cases h
      | ok e2 =>
        rw [htp] at h
        dsimp only at h
        by_cases hif : truthy (pyGet e2.licenseInfo) = true
        · rw [if_pos hif] at h
          injection h with h'
          subst h'
          obtain ⟨hud, hurl⟩ := top_phase_ud o u e.url e.licenseInfo (relink e ud') e2 htp
          rw [show (relink e ud').updatedDependency =
              e.updatedDependency.map (fun _ => ud') from rfl] at hud
          rw [show (relink e ud').url = e.url from rfl] at hurl
          have han2 : annotate_nested o u m (e2.updatedDependency.getD emptyUD) = .ok ud' := by
            cases heud : e.updatedDependency with
            | none =>
              rw [heud] at hud han
              rw [hud]
              exact han
            | some w =>
              rw [heud] at hud han
              rw [hud]
              exact annotate_nested_idem o u m w ud' han
          have hrel : relink e2 ud' = e2 := by
            unfold relink
            have hmm : (e.updatedDependency.map (fun _ => ud')).map (fun _ => ud') =
                e.updatedDependency.map (fun _ => ud') := by
              cases e.updatedDependency <;> rfl
            rw [hud, hmm, ← hud]
          have htp2 : top_phase o u e2.url e2.licenseInfo e2 = .ok e2 := by
            rw [hurl]
            exact top_phase_idem o u e.url (relink e ud') e2 htp hif
          unfold update_json_file
          rw [han2]
          dsimp only
          rw [hrel, htp2]
          dsimp only
          rw [if_pos hif]
        · rw [if_neg hif] at h; cases h
  refine ⟨main, fun e2 h2 => ?_⟩
  rw [main] at h2
  injection h2 with h'
  rw [h']

/-- C8 witness: a record already carrying the sentinel annotation maps to
itself on the second run. -/
theorem c8_annotation_idempotent_witness :
    update_json_file (fun _ _ => ⟨404, .absent⟩) urlPathOf []
        { url := none, licenseInfo := some (some "MIT"),
          updatedDependency :=
            some { dependencyGroupID := some (some "g"),
                   licenseInfo := some (some "No license found"),
                   githubRepoSlug := some (some "Repository not found") } } =
      .ok { url := none, licenseInfo := some (some "MIT"),
            updatedDependency :=
              some { dependencyGroupID := some (some "g"),
                     licenseInfo := some (some "No license found"),
                     githubRepoSlug := some (some "Repository not found") } } :=
  (c8_annotation_idempotent (fun _ _ => ⟨404, .absent⟩) urlPathOf []
    { url := none, licenseInfo := some (some "MIT"),
      updatedDependency := some { dependencyGroupID := some (some "g") } }
    { url := none, licenseInfo := some (some "MIT"),
      updatedDependency :=
        some { dependencyGroupID := some (some "g"),
               licenseInfo := some (some "No license found"),
               githubRepoSlug := some (some "Repository not found") } }
    rfl).1

end Bump
